import Mathlib

/-!
Verification of the schedule-spreadsheet parser (src/main.rs).

The development shallowly embeds the core parsing pipeline: the cell grammar
parser (`Class.new`), the subgroup-header scan, the body grid scan, and the
sheet assembler, together with the JSON encoding of the resulting data model.
Machine integers (`u8`, `usize`) are modelled as `Nat`; `usize` subtraction is
modelled as a checked operation that signals an arithmetic panic on underflow,
matching Rust's overflow-checked semantics.  Panics (`assert!`, `unwrap`) are
modelled as `Except` errors / `Option.none`.
-/

deriving instance DecidableEq for Except

namespace Misisa

/-- Spreadsheet cell, abstracting calamine's cell type: an empty cell, a
string cell, or any other non-empty non-string cell (number, bool, error,
date).  The program only ever inspects emptiness, stringness and the string
payload of a cell. -/
inductive DataType
  | empty
  | string (s : String)
  | other
  deriving DecidableEq

/-- Translation of calamine's `DataType::is_empty`. -/
def DataType.isEmpty : DataType → Bool
  | .empty => true
  | _ => false

/-- Translation of calamine's `DataType::is_string`. -/
def DataType.isString : DataType → Bool
  | .string _ => true
  | _ => false

/-- Pedagogical category of a class (`enum ClassType` in main.rs). -/
inductive ClassType
  | Lection
  | Practice
  | Lab
  | Unknown (s : String)
  deriving DecidableEq

/-- One scheduled class occurrence (`struct Class` in main.rs). -/
structure Class where
  name : String
  class_type : ClassType
  teacher : Option String
  room : String
  deriving DecidableEq

/-- First-occurrence split over character lists: the text before and after the
first occurrence of `pat`, as in Rust's `str::split_once`. -/
def splitOnceChars (pat : List Char) : List Char → Option (List Char × List Char)
  | [] => none
  | c :: cs =>
    if pat.isPrefixOf (c :: cs) then some ([], (c :: cs).drop pat.length)
    else
      match splitOnceChars pat cs with
      | some p => some (c :: p.1, p.2)
      | none => none

/-- Rust's `str::split_once` lifted to `String`. -/
def splitOnce (s pat : String) : Option (String × String) :=
  (splitOnceChars pat.data s.data).map fun p => (⟨p.1⟩, ⟨p.2⟩)

/-- Rust's `str::strip_suffix` for a one-character suffix. -/
def stripSuffixChar (s : String) (c : Char) : Option String :=
  match s.data.getLast? with
  | some c' => if c' = c then some ⟨s.data.dropLast⟩ else none
  | none => none

/-- The type-label/teacher split of `Class::new` (main.rs lines 52-59): the
remainder after `" ("` is split at the first newline; the part after the
newline is the teacher candidate, dropped when it is the empty string
(`is_empty`, no trimming). -/
def splitTypeTeacher (rest : String) : String × Option String :=
  let split :=
    match splitOnce rest "\n" with
    | some q => (q.1, some q.2)
    | none => (rest, none)
  (split.1, if (split.2.map (fun t => t == "")).getD false then none else split.2)

/-- Translation of `Class::new` (main.rs lines 36-84): parses a description
cell and a room cell into an optional `Class`.  A non-string cell, a missing
`" ("` separator or a missing closing `')'` yield `none` (an empty slot, not
an error). -/
def Class.new (name_and_teacher room : DataType) : Option Class :=
  match name_and_teacher with
  | .string s =>
    match splitOnce s " (" with
    | none => none
    | some (name, rest) =>
      let split := splitTypeTeacher rest
      let teacher := split.2
      match stripSuffixChar split.1 ')' with
      | none => none
      | some label =>
        let ct :=
          if label = "Лекционные" then ClassType.Lection
          else if label = "Практические" then ClassType.Practice
          else if label = "Лабораторные" then ClassType.Lab
          else ClassType.Unknown label
        match room with
        | .string r => some ⟨name, ct, teacher, r⟩
        | _ => none
  | _ => none

/-- One day's schedule (`struct Day` in main.rs): 7 optional upper classes and
7 optional lower classes.  The Rust arrays `[Option<Class>; 7]` are modelled
as lists, built with length 7 by the scanner. -/
structure Day where
  upper_classes : List (Option Class)
  lower_classes : List (Option Class)
  deriving DecidableEq

/-- The `Default` value of `Day`: all 14 slots empty. -/
def Day.default : Day := ⟨List.replicate 7 none, List.replicate 7 none⟩

/-- `type Week = Box<[Day; 7]>`, modelled as a list of days. -/
abbrev Week := List Day

/-- The `Default` value of `Week`: 7 default days. -/
def Week.default : Week := List.replicate 7 Day.default

/-- One numbered subgroup's week (`struct Subgroup`); `u8` is modelled as
`Nat`. -/
structure Subgroup where
  number : Nat
  days : Week
  deriving DecidableEq

/-- A group's schedule shape (`enum WeekInfo`). -/
inductive WeekInfo
  | WithSubgroups (subgroups : List Subgroup)
  | WithoutSubgroup (week : Week)
  deriving DecidableEq

/-- A named student group (`struct GroupInfo`). -/
structure GroupInfo where
  name : String
  subgroups : WeekInfo
  deriving DecidableEq

/-- One sheet's worth of schedule (`struct Course`). -/
structure Course where
  name : String
  groups : List GroupInfo
  deriving DecidableEq

/-- Translation of `GroupInfo::get_subgroup` (main.rs lines 113-122). -/
def GroupInfo.get_subgroup (g : GroupInfo) (subgroup_number : Nat) : Option Subgroup :=
  match g.subgroups with
  | .WithSubgroups subgroups => subgroups.find? (fun s => s.number == subgroup_number)
  | .WithoutSubgroup _ => none

/-- Modelled from the spec: the first subgroup in list order whose number
equals `n`, `none` when no subgroup has that number.  Reference definition
against which `GroupInfo.get_subgroup` is compared. -/
def firstWithNumber (l : List Subgroup) (n : Nat) : Option Subgroup :=
  match l with
  | [] => none
  | s :: rest => if s.number = n then some s else firstWithNumber rest n

/-- Digits-only decimal value of a character list, `none` when the list is
empty or contains a non-digit. -/
def digitsToNat? (l : List Char) : Option Nat :=
  if l.isEmpty then none
  else if l.all (fun c => c.isDigit) then
    some (l.foldl (fun acc c => acc * 10 + (c.toNat - '0'.toNat)) 0)
  else none

/-- Rust's `str::parse::<u8>`: an optional leading `'+'`, then one or more
decimal digits, with the value fitting in `u8`. -/
def parseU8? (s : String) : Option Nat :=
  let body :=
    match s.data with
    | '+' :: rest => rest
    | l => l
  match digitsToNat? body with
  | some n => if n ≤ 255 then some n else none
  | none => none

/-- Errors of the sheet parser.  The Rust source panics (`assert!`,
`unwrap()`); each distinct panic condition is modelled as one error value,
named after the spec's error taxonomy.  The three row-overflow assertions
(`row_count <= 7 * 7`, `day_num <= 6`, `lesson_num <= 6`) all signal the
too-many-rows condition and share the constructor `tooManyRows`.
`subtractUnderflow` is the arithmetic panic of the checked `usize`
subtraction `row.len() - 3`. -/
inductive ScanError
  | tooManyRows
  | rowColumnCountMismatch
  | tooManyColumns
  | subtractUnderflow
  | cellTypeMismatch
  | unparsableSubgroupNumber
  deriving DecidableEq

/-- Accumulator of the subgroup-header scan: the clusters pushed so far
(`subgroups` in main.rs) and the current group's optional list of subgroup
numbers (`subgroup_numbers`). -/
structure HeaderState where
  out : List (Option (List Nat))
  current : Option (List Nat)
  deriving DecidableEq

/-- One iteration of the subgroup-header loop (main.rs lines 345-388) on the
cell with stepped index `cellNum`.  An empty cell flushes the accumulator
(except at index 0); a string cell parses to a number that either closes the
current list (when the list's last element is strictly greater) or is
appended; a non-empty non-string cell is the `assert!(cell.is_string())`
panic; an unparsable string is the `parse().unwrap()` panic. -/
def headerStep (cellNum : Nat) (cell : DataType) (st : HeaderState) :
    Except ScanError HeaderState :=
  match cell with
  | .empty =>
    .ok ⟨if cellNum ≠ 0 then st.out ++ [st.current] else st.out, none⟩
  | .string s =>
    let started :=
      match st.current with
      | none => (if cellNum ≠ 0 then st.out ++ [none] else st.out, ([] : List Nat))
      | some v => (st.out, v)
    match parseU8? s with
    | none => .error .unparsableSubgroupNumber
    | some parsed =>
      match started.2.getLast? with
      | some last =>
        if last > parsed then .ok ⟨started.1 ++ [some started.2], some [parsed]⟩
        else .ok ⟨started.1, some (started.2 ++ [parsed])⟩
      | none => .ok ⟨started.1, some (started.2 ++ [parsed])⟩
  | .other => .error .cellTypeMismatch

/-- The subgroup-header loop: processes the scanned cells left to right,
threading the accumulator, with `i` the stepped cell index. -/
def runHeader : Nat → List DataType → HeaderState → Except ScanError HeaderState
  | _, [], st => .ok st
  | i, c :: cs, st => do
    let st' ← headerStep i c st
    runHeader (i + 1) cs st'

/-- Every second element of a list, starting with the first: the
`.step_by(2)` iterator adaptor. -/
def everySecond : List α → List α
  | [] => []
  | [x] => [x]
  | x :: _ :: xs => x :: everySecond xs

/-- The scanned cells of the subgroup-header row: skip the first 3 lead-in
cells, then take every second cell (`.iter().skip(3).step_by(2)`). -/
def headerCells (row : List DataType) : List DataType :=
  everySecond (row.drop 3)

/-- Translation of the subgroup-header scan (main.rs lines 332-391): runs the
loop over the scanned cells of the row and pushes the final accumulator. -/
def parseSubgroupHeader (row : List DataType) :
    Except ScanError (List (Option (List Nat))) := do
  let st ← runHeader 0 (headerCells row) ⟨[], none⟩
  .ok (st.out ++ [st.current])

/-- `subgroups_num` (main.rs lines 393-396): each `none` cluster counts one
column, each `some list` cluster counts `list.length` columns. -/
def subgroupsNum (clusters : List (Option (List Nat))) : Nat :=
  (clusters.map (fun el => (el.map List.length).getD 1)).sum

/-- Check of a body row's cell count (main.rs lines 421-434):
`assert_eq!((row.len() - 3) / 2, subgroups_num)` with the checked `usize`
subtraction panicking on underflow when the row has fewer than 3 cells. -/
def rowCheck (len s : Nat) : Except ScanError Unit :=
  if len < 3 then .error .subtractUnderflow
  else if (len - 3) / 2 ≠ s then .error .rowColumnCountMismatch
  else .ok ()

/-- Consecutive non-overlapping pairs of a list, a trailing unpaired element
dropped: the `tuple_windows().step_by(2)` iterator chain. -/
def pairsOf : List α → List (α × α)
  | a :: b :: rest => (a, b) :: pairsOf rest
  | _ => []

/-- A write event of the grid scan: column, day, lesson, and whether the
upper (`true`) or lower (`false`) slot was written. -/
abbrev Slot := Nat × Nat × Nat × Bool

/-- Replaces the element at index `i` by `f` of it; identity out of bounds.
In the scan all uses are in bounds (mirroring Rust's panicking indexing). -/
def modifyIdx : List α → Nat → (α → α) → List α
  | [], _, _ => []
  | x :: xs, 0, f => f x :: xs
  | x :: xs, n + 1, f => x :: modifyIdx xs n f

/-- One slot-pair write of the grid scan (main.rs lines 449-453):
`classes[c][day].upper_classes[lesson] = up` and likewise for the lower
class. -/
def writeSlot (classes : List Week) (c day lesson : Nat)
    (up lo : Option Class) : List Week :=
  modifyIdx classes c fun week =>
    modifyIdx week day fun d =>
      ⟨d.upper_classes.set lesson up, d.lower_classes.set lesson lo⟩

/-- The column loop of the grid scan (main.rs lines 438-454) over the zipped
(description, room) pairs of the upper and lower rows, starting at column
index `c`.  Besides performing the writes it records one `Slot` event per
written slot, in write order. -/
def writeCols (day lesson : Nat) :
    Nat → List ((DataType × DataType) × (DataType × DataType)) →
    List Week × List Slot → List Week × List Slot
  | _, [], st => st
  | c, col :: rest, st =>
    writeCols day lesson (c + 1) rest
      (writeSlot st.1 c day lesson (Class.new col.1.1 col.1.2) (Class.new col.2.1 col.2.2),
       st.2 ++ [(c, day, lesson, true), (c, day, lesson, false)])

/-- Processing of one (upper, lower) body-row pair at pair index `k`
(main.rs lines 404-454): the three row-overflow assertions, the two row
length checks, the column-count assertion, then the column writes with
`day = k / 7` and `lesson = k % 7`. -/
def scanPair (s k : Nat) (st : List Week × List Slot) (up lo : List DataType) :
    Except ScanError (List Week × List Slot) :=
  if k > 7 * 7 then .error .tooManyRows
  else if k / 7 > 6 then .error .tooManyRows
  else if k % 7 > 6 then .error .tooManyRows
  else
    match rowCheck up.length s with
    | .error e => .error e
    | .ok _ =>
      match rowCheck lo.length s with
      | .error e => .error e
      | .ok _ =>
        let cols := (pairsOf (up.drop 3)).zip (pairsOf (lo.drop 3))
        if cols.length > s then .error .tooManyColumns
        else .ok (writeCols (k / 7) (k % 7) 0 cols st)

/-- The body loop over the enumerated row pairs, `k` the pair index. -/
def scanPairs (s : Nat) :
    Nat → List (List DataType × List DataType) → List Week × List Slot →
    Except ScanError (List Week × List Slot)
  | _, [], st => .ok st
  | k, (up, lo) :: rest, st => do
    let st' ← scanPair s k st up lo
    scanPairs s (k + 1) rest st'

/-- Translation of the grid scan (main.rs lines 398-455): pre-allocates
`s` default weeks, pairs the body rows non-overlappingly and runs the body
loop.  Returns the filled week buffers together with the list of slot-write
events. -/
def scanBody (rows : List (List DataType)) (s : Nat) :
    Except ScanError (List Week × List Slot) :=
  scanPairs s 0 (pairsOf rows) (List.replicate s Week.default, [])

/-- The expected write events of the column loop for `n` columns starting at
column `c`: upper then lower for each column. -/
def blockFrom (c n day lesson : Nat) : List Slot :=
  match n with
  | 0 => []
  | m + 1 => (c, day, lesson, true) :: (c, day, lesson, false) :: blockFrom (c + 1) m day lesson

/-- The expected write events of `n` consecutive row pairs starting at pair
index `k`, over `s` columns: each pair `j` writes day `j / 7`, lesson
`j % 7`. -/
def traceRange (k n s : Nat) : List Slot :=
  match n with
  | 0 => []
  | m + 1 => blockFrom 0 s (k / 7) (k % 7) ++ traceRange (k + 1) m s

/-- The filtered group names of the first header row (main.rs lines 323-328
and 540): skip 3 lead-in cells, keep only string cells. -/
def filteredNames (row : List DataType) : List String :=
  (row.drop 3).filterMap fun c =>
    match c with
    | .string s => some s
    | _ => none

/-- Translation of the sheet assembler (main.rs lines 535-566): zips the
filtered group names with the subgroup clusters (Rust `zip`, truncating to
the shorter), consuming the week buffers as a cursor.  A `some` cluster takes
one week per subgroup number (again a truncating `zip`); a `none` cluster
takes exactly one week, panicking (`next().unwrap()`, modelled as `none`)
when the cursor is exhausted.  Returns the groups and the unconsumed weeks. -/
def assembleGroups :
    List String → List (Option (List Nat)) → List Week →
    Option (List GroupInfo × List Week)
  | [], _, weeks => some ([], weeks)
  | _ :: _, [], weeks => some ([], weeks)
  | n :: ns, c :: cs, weeks =>
    match c with
    | some nums => do
      let subs := (nums.zip weeks).map fun p => Subgroup.mk p.1 p.2
      let rest ← assembleGroups ns cs (weeks.drop nums.length)
      some (⟨n, .WithSubgroups subs⟩ :: rest.1, rest.2)
    | none =>
      match weeks with
      | [] => none
      | w :: ws => do
        let rest ← assembleGroups ns cs ws
        some (⟨n, .WithoutSubgroup w⟩ :: rest.1, rest.2)

/-- Assembly of one sheet's `Course` from its name, raw first header row,
clusters and week buffers (main.rs lines 537-567). -/
def assembleCourse (name : String) (firstRow : List DataType)
    (clusters : List (Option (List Nat))) (weeks : List Week) : Option Course :=
  (assembleGroups (filteredNames firstRow) clusters weeks).map fun p =>
    Course.mk name p.1

/-- Structured document (JSON-compatible) values: objects, arrays, strings,
numbers and null. -/
inductive Json
  | null
  | str (s : String)
  | num (n : Nat)
  | arr (xs : List Json)
  | obj (fields : List (String × Json))

/-- Serde-style encoding of `ClassType`: unit variants as their name string,
the newtype variant as a one-field object. -/
def encodeClassType : ClassType → Json
  | .Lection => .str "Lection"
  | .Practice => .str "Practice"
  | .Lab => .str "Lab"
  | .Unknown s => .obj [("Unknown", .str s)]

/-- Encoding of an optional string: `null` or the string. -/
def encodeOptStr : Option String → Json
  | none => .null
  | some s => .str s

/-- Encoding of `Class` as an object of its four fields. -/
def encodeClass (c : Class) : Json :=
  .obj [("name", .str c.name), ("class_type", encodeClassType c.class_type),
        ("teacher", encodeOptStr c.teacher), ("room", .str c.room)]

/-- Encoding of an optional class: `null` or the class object. -/
def encodeOptClass : Option Class → Json
  | none => .null
  | some c => encodeClass c

/-- Encoding of `Day` as an object of its two slot arrays. -/
def encodeDay (d : Day) : Json :=
  .obj [("upper_classes", .arr (d.upper_classes.map encodeOptClass)),
        ("lower_classes", .arr (d.lower_classes.map encodeOptClass))]

/-- Encoding of `Week` as an array of days. -/
def encodeWeek (w : Week) : Json :=
  .arr (w.map encodeDay)

/-- Encoding of `Subgroup` as an object of its number and week. -/
def encodeSubgroup (s : Subgroup) : Json :=
  .obj [("number", .num s.number), ("days", encodeWeek s.days)]

/-- Externally tagged encoding of `WeekInfo`. -/
def encodeWeekInfo : WeekInfo → Json
  | .WithSubgroups l => .obj [("WithSubgroups", .arr (l.map encodeSubgroup))]
  | .WithoutSubgroup w => .obj [("WithoutSubgroup", encodeWeek w)]

/-- Encoding of `GroupInfo` as an object of its name and schedule shape. -/
def encodeGroupInfo (g : GroupInfo) : Json :=
  .obj [("name", .str g.name), ("subgroups", encodeWeekInfo g.subgroups)]

/-- Encoding of `Course` as an object of its name and groups. -/
def encodeCourse (c : Course) : Json :=
  .obj [("name", .str c.name), ("groups", .arr (c.groups.map encodeGroupInfo))]

/-- Decoding of a string value. -/
def decodeStr : Json → Option String
  | .str s => some s
  | _ => none

/-- Decoding of `ClassType`. -/
def decodeClassType : Json → Option ClassType
  | .str "Lection" => some .Lection
  | .str "Practice" => some .Practice
  | .str "Lab" => some .Lab
  | .obj [("Unknown", .str s)] => some (.Unknown s)
  | _ => none

/-- Decoding of an optional string. -/
def decodeOptStr : Json → Option (Option String)
  | .null => some none
  | .str s => some (some s)
  | _ => none

/-- Decoding of `Class`. -/
def decodeClass : Json → Option Class
  | .obj [("name", n), ("class_type", ct), ("teacher", t), ("room", r)] => do
    let name ← decodeStr n
    let ctv ← decodeClassType ct
    let tv ← decodeOptStr t
    let room ← decodeStr r
    some ⟨name, ctv, tv, room⟩
  | _ => none

/-- Decoding of an optional class. -/
def decodeOptClass : Json → Option (Option Class)
  | .null => some none
  | j => (decodeClass j).map some

/-- Decoding of `Day`. -/
def decodeDay : Json → Option Day
  | .obj [("upper_classes", .arr us), ("lower_classes", .arr ls)] => do
    let u ← us.mapM decodeOptClass
    let l ← ls.mapM decodeOptClass
    some ⟨u, l⟩
  | _ => none

/-- Decoding of `Week`. -/
def decodeWeek : Json → Option Week
  | .arr ds => ds.mapM decodeDay
  | _ => none

/-- Decoding of a number value. -/
def decodeNum : Json → Option Nat
  | .num n => some n
  | _ => none

/-- Decoding of `Subgroup`. -/
def decodeSubgroup : Json → Option Subgroup
  | .obj [("number", n), ("days", d)] => do
    let nv ← decodeNum n
    let dv ← decodeWeek d
    some ⟨nv, dv⟩
  | _ => none

/-- Decoding of `WeekInfo`. -/
def decodeWeekInfo : Json → Option WeekInfo
  | .obj [("WithSubgroups", .arr l)] => do
    let lv ← l.mapM decodeSubgroup
    some (.WithSubgroups lv)
  | .obj [("WithoutSubgroup", w)] => do
    let wv ← decodeWeek w
    some (.WithoutSubgroup wv)
  | _ => none

/-- Decoding of `GroupInfo`. -/
def decodeGroupInfo : Json → Option GroupInfo
  | .obj [("name", n), ("subgroups", s)] => do
    let nv ← decodeStr n
    let sv ← decodeWeekInfo s
    some ⟨nv, sv⟩
  | _ => none

/-- Decoding of `Course`. -/
def decodeCourse : Json → Option Course
  | .obj [("name", n), ("groups", .arr gs)] => do
    let nv ← decodeStr n
    let gv ← gs.mapM decodeGroupInfo
    some ⟨nv, gv⟩
  | _ => none

/-! ## Theorems -/

/-- C9: a group without subgroups has no retrievable subgroup, and a group
with subgroups yields the first subgroup in list order whose number matches
(`firstWithNumber` is the spec-side reference definition). -/
theorem c9_get_subgroup (name : String) (w : Week) (l : List Subgroup) (n : Nat) :
    GroupInfo.get_subgroup ⟨name, .WithoutSubgroup w⟩ n = none ∧
    GroupInfo.get_subgroup ⟨name, .WithSubgroups l⟩ n = firstWithNumber l n := by
  refine ⟨rfl, ?_⟩
  induction l with
  | nil => rfl
  | cons s rest ih =>
    simp only [GroupInfo.get_subgroup] at ih ⊢
    rw [List.find?]
    by_cases h : s.number = n
    · simp [firstWithNumber, h]
    · have hb : (s.number == n) = false := by simp [h]
      simp [hb, firstWithNumber, h, ih]

/-- C1 counterexample: with the accumulator holding the non-empty list `[1]`
and the cell parsing to `n = 1` (so `n` is less than *or equal to* the last
element but not strictly less), the scan appends, producing current list
`[1, 1]`; it does not close the cluster as the claim demands. -/
theorem c1_counterexample :
    headerStep 1 (DataType.string "1") ⟨[], some [1]⟩ = .ok ⟨[], some [1, 1]⟩ ∧
    headerStep 1 (DataType.string "1") ⟨[], some [1]⟩ ≠ .ok ⟨[some [1]], some [1]⟩ :=
  ⟨by decide, by decide⟩

/-- C1 (amended): when a non-empty cell parses to `n` and the accumulator
holds a list with last element `last`, `n` is appended unless `n` is
*strictly less than* `last`, in which case the list is closed and pushed and
a new list `[n]` begins. -/
theorem c1_amended (cellNum : Nat) (s : String) (st : HeaderState)
    (v : List Nat) (last n : Nat)
    (hcur : st.current = some v) (hlast : v.getLast? = some last)
    (hparse : parseU8? s = some n) :
    headerStep cellNum (.string s) st =
      if n < last then .ok ⟨st.out ++ [some v], some [n]⟩
      else .ok ⟨st.out, some (v ++ [n])⟩ := by
  obtain ⟨out, cur⟩ := st
  simp only at hcur
  subst hcur
  simp [headerStep, hparse, hlast]

/-- C1 witness: a concrete strictly-descending step (`last = 2`, `n = 1`)
closes the cluster and begins `[1]`. -/
theorem c1_witness :
    headerStep 1 (DataType.string "1") ⟨[], some [1, 2]⟩ = .ok ⟨[some [1, 2]], some [1]⟩ := by
  have h := c1_amended 1 "1" ⟨[], some [1, 2]⟩ [1, 2] 2 1 rfl rfl (by decide)
  rw [h]
  decide

/-- C5 counterexample: a description whose teacher portion is the single
space `" "` (whitespace only) parses with `teacher = some " "`, not `none`:
the code tests `is_empty` without trimming. -/
theorem c5_counterexample :
    Class.new (.string "Math (Лекционные)\n ") (.string "R") =
      some ⟨"Math", .Lection, some " ", "R"⟩ ∧
    (Class.new (.string "Math (Лекционные)\n ") (.string "R")).map Class.teacher ≠
      some none :=
  ⟨by decide, by decide⟩

/-- C5 (amended): when the text after the first `" ("` contains a newline,
the part after the newline is the teacher, and the teacher is `none` exactly
when that part is the empty string — no trimming, so a whitespace-only
teacher is kept verbatim. -/
theorem c5_amended (rest ct t : String) (h : splitOnce rest "\n" = some (ct, t)) :
    (splitTypeTeacher rest).2 = if t = "" then none else some t := by
  by_cases ht : t = "" <;> simp [splitTypeTeacher, h, ht]

/-- C5 witness: the teacher portion `" "` is kept as `some " "`. -/
theorem c5_witness : (splitTypeTeacher "Лекционные)\n ").2 = some " " := by
  have h := c5_amended "Лекционные)\n " "Лекционные)" " " (by decide)
  rw [h]
  decide

/-- C3 counterexample: with `subgroups_num = 1`, a body row of 6 cells has
3 remaining cells after the lead-in skip — not `2 × 1` — yet the scan
accepts the grid, because `(6 - 3) / 2 = 1` under integer division. -/
theorem c3_counterexample :
    (scanBody [List.replicate 6 DataType.empty, List.replicate 6 DataType.empty] 1).isOk
      = true ∧
    (List.replicate 6 DataType.empty).length - 3 ≠ 2 * 1 :=
  ⟨by decide, by decide⟩

/-- C3 (amended): for rows of at least 3 cells the check enforces
`(len - 3) / 2 = subgroups_num` under integer division; consequently a row
with `2 × subgroups_num + 1` remaining cells is accepted (the odd trailing
cell silently ignored), and `RowColumnCountMismatch` fires exactly when the
halved count differs. -/
theorem c3_amended (len s : Nat) (h : 3 ≤ len) :
    (rowCheck len s = .error .rowColumnCountMismatch ↔ (len - 3) / 2 ≠ s) ∧
    (rowCheck len s = .ok () ↔ (len - 3) / 2 = s) ∧
    rowCheck (3 + 2 * s + 1) s = .ok () := by
  have h3 : ¬ len < 3 := by omega
  refine ⟨?_, ?_, ?_⟩
  · by_cases he : (len - 3) / 2 = s <;> simp [rowCheck, h3, he]
  · by_cases he : (len - 3) / 2 = s <;> simp [rowCheck, h3, he]
  · have e1 : ¬ 3 + 2 * s + 1 < 3 := by omega
    unfold rowCheck
    rw [if_neg e1, if_neg (by omega : ¬ (3 + 2 * s + 1 - 3) / 2 ≠ s)]

/-- C3 witness: a row of 6 cells passes the check for `subgroups_num = 1`
though its remaining cell count is 3, not 2. -/
theorem c3_witness : rowCheck 6 1 = .ok () ∧ 6 - 3 ≠ 2 * 1 :=
  ⟨((c3_amended 6 1 (by decide)).2.1).mpr (by decide), by decide⟩

/-- C10: the column-count check computes `(len - 3) / 2` with `usize`
subtraction, so a body row with fewer than 3 cells hits the arithmetic
underflow panic (modelled `subtractUnderflow`) — both at the check and
through the whole scan — and it is not a `rowColumnCountMismatch` report;
with at least 3 cells the subtraction never underflows. -/
theorem c10_underflow (len s : Nat) :
    (len < 3 →
      rowCheck len s = .error .subtractUnderflow ∧
      rowCheck len s ≠ .error .rowColumnCountMismatch ∧
      scanBody [List.replicate len DataType.empty, List.replicate len DataType.empty] s =
        .error .subtractUnderflow) ∧
    (3 ≤ len → rowCheck len s ≠ .error .subtractUnderflow) := by
  constructor
  · intro hlen
    have hrc : rowCheck len s = .error .subtractUnderflow := by simp [rowCheck, hlen]
    refine ⟨hrc, by simp [hrc], ?_⟩
    simp only [scanBody, pairsOf, scanPairs, scanPair, List.length_replicate, hrc]
    rfl
  · intro hlen
    have h3 : ¬ len < 3 := by omega
    by_cases he : (len - 3) / 2 = s <;> simp [rowCheck, h3, he]

/-- C10 witness: a 2-cell row underflows the subtraction; a 5-cell row does
not. -/
theorem c10_witness :
    rowCheck 2 1 = .error ScanError.subtractUnderflow ∧
    rowCheck 5 1 ≠ .error ScanError.subtractUnderflow :=
  ⟨((c10_underflow 2 1).1 (by decide)).1, (c10_underflow 5 1).2 (by decide)⟩

/-- C4 counterexample: two filtered group names against a single subgroup
cluster — a count mismatch — produce a partial result of one group, with no
error of any kind. -/
theorem c4_counterexample :
    assembleGroups ["A", "B"] [none] [Week.default] =
      some (([⟨"A", WeekInfo.WithoutSubgroup Week.default⟩], []) :
        List GroupInfo × List Week) ∧
    (["A", "B"] : List String).length ≠ ([none] : List (Option (List Nat))).length :=
  ⟨by decide, by decide⟩

/-- C4 (amended): the assembler zips the filtered group names with the
subgroup clusters truncating to the shorter list (Rust `zip`): whenever it
returns a result, the result has `min` of the two lengths many groups, and a
count mismatch is silently truncated rather than reported. -/
theorem c4_amended (names : List String) (clusters : List (Option (List Nat)))
    (weeks : List Week) (gs : List GroupInfo) (rest : List Week)
    (h : assembleGroups names clusters weeks = some (gs, rest)) :
    gs.length = min names.length clusters.length := by
  induction names generalizing clusters weeks gs rest with
  | nil =>
    simp [assembleGroups] at h
    simp [h.1]
  | cons n ns ih =>
    match clusters with
    | [] =>
      simp [assembleGroups] at h
      simp [h.1]
    | some nums :: cs =>
      simp only [assembleGroups, Option.bind_eq_bind, bind, Option.bind] at h
      match hrec : assembleGroups ns cs (weeks.drop nums.length) with
      | none => rw [hrec] at h; exact absurd h (by simp)
      | some r =>
        rw [hrec] at h
        simp only [Option.some.injEq, Prod.mk.injEq] at h
        have := ih cs (weeks.drop nums.length) r.1 r.2 (by rw [hrec])
        rw [← h.1]
        simp [this]
        omega
    | none :: cs =>
      match weeks with
      | [] => simp [assembleGroups] at h
      | w :: ws =>
        simp only [assembleGroups, Option.bind_eq_bind, bind, Option.bind] at h
        match hrec : assembleGroups ns cs ws with
        | none => rw [hrec] at h; exact absurd h (by simp)
        | some r =>
          rw [hrec] at h
          simp only [Option.some.injEq, Prod.mk.injEq] at h
          have := ih cs ws r.1 r.2 (by rw [hrec])
          rw [← h.1]
          simp [this]
          omega

/-- C4 witness: the mismatched concrete input yields exactly
`min 2 1 = 1` group. -/
theorem c4_witness :
    ([⟨"A", WeekInfo.WithoutSubgroup Week.default⟩] : List GroupInfo).length =
      min (["A", "B"] : List String).length ([none] : List (Option (List Nat))).length :=
  c4_amended ["A", "B"] [none] [Week.default]
    [⟨"A", WeekInfo.WithoutSubgroup Week.default⟩] [] (by decide)

/-- Helper: from stepped index 1 on, every empty cell flushes the (empty)
accumulator, pushing one `none` per cell. -/
theorem runHeader_allEmpty (m : Nat) :
    ∀ (i : Nat) (out : List (Option (List Nat))), 1 ≤ i →
      runHeader i (List.replicate m DataType.empty) ⟨out, none⟩ =
        .ok ⟨out ++ List.replicate m none, none⟩ := by
  induction m with
  | zero => intro i out _; simp [runHeader]
  | succ m ih =>
    intro i out hi
    rw [List.replicate_succ, runHeader]
    have hstep : headerStep i DataType.empty ⟨out, none⟩ =
        .ok ⟨out ++ [none], none⟩ := by
      simp [headerStep, Nat.pos_iff_ne_zero.mp hi]
    rw [hstep]
    show runHeader (i + 1) (List.replicate m DataType.empty) ⟨out ++ [none], none⟩ = _
    rw [ih (i + 1) (out ++ [none]) (by omega)]
    rw [List.append_assoc, List.singleton_append, ← List.replicate_succ]

/-- C7 counterexample: a header row of 6 cells, all empty (so every scanned
cell at the skip-3, every-second positions is empty), yields the cluster
sequence `[none, none]` — not `[none]` — and `subgroups_num = 2`. -/
theorem c7_counterexample :
    (∀ c ∈ headerCells (List.replicate 6 DataType.empty), c = DataType.empty) ∧
    parseSubgroupHeader (List.replicate 6 DataType.empty) = .ok [none, none] ∧
    parseSubgroupHeader (List.replicate 6 DataType.empty) ≠ .ok [none] ∧
    subgroupsNum [none, none] = 2 :=
  ⟨by decide, by decide, by decide, by decide⟩

/-- C7 (amended): a header row whose scanned cells are all empty yields one
`none` cluster per scanned cell — `max k 1` of them, where `k` is the number
of scanned cells (one `none` when there are no scanned cells) — hence
`subgroups_num = max k 1`; the result is `[none]` exactly when `k ≤ 1`. -/
theorem c7_amended (row : List DataType)
    (h : ∀ c ∈ headerCells row, c = DataType.empty) :
    parseSubgroupHeader row =
      .ok (List.replicate (max (headerCells row).length 1) none) ∧
    subgroupsNum (List.replicate (max (headerCells row).length 1) none) =
      max (headerCells row).length 1 := by
  constructor
  · have hrep : headerCells row = List.replicate (headerCells row).length DataType.empty :=
      List.eq_replicate_of_mem h
    unfold parseSubgroupHeader
    rw [hrep]
    match hk : (headerCells row).length with
    | 0 => rfl
    | m + 1 =>
      rw [List.replicate_succ, runHeader]
      have hstep : headerStep 0 DataType.empty ⟨[], none⟩ = .ok ⟨[], none⟩ := by
        simp [headerStep]
      rw [hstep]
      show Except.bind (runHeader 1 (List.replicate m DataType.empty) ⟨[], none⟩) _ = _
      rw [runHeader_allEmpty m 1 [] (by omega)]
      have hmax : max (m + 1) 1 = m + 1 := by omega
      simp only [List.length_cons, List.length_replicate]
      rw [hmax, List.replicate_succ']
      rfl
  · simp [subgroupsNum, List.map_replicate]

/-- C7 witness: a 7-cell all-empty header row has 2 scanned cells and yields
`[none, none]` with `subgroups_num = 2`. -/
theorem c7_witness :
    parseSubgroupHeader (List.replicate 7 DataType.empty) =
      .ok (List.replicate (max (headerCells (List.replicate 7 DataType.empty)).length 1) none) ∧
    subgroupsNum (List.replicate
      (max (headerCells (List.replicate 7 DataType.empty)).length 1) none) =
      max (headerCells (List.replicate 7 DataType.empty)).length 1 :=
  c7_amended (List.replicate 7 DataType.empty) (by decide)

/-- Helper: `pairsOf` yields one pair per two elements. -/
theorem pairsOf_length : ∀ (l : List α), (pairsOf l).length = l.length / 2
  | [] => by simp [pairsOf]
  | [_] => by simp [pairsOf]
  | _ :: _ :: rest => by
    simp [pairsOf, pairsOf_length rest]
    omega

/-- Helper: both components of a pair produced by `pairsOf` are members of
the original list. -/
theorem pairsOf_mem : ∀ (l : List α) (p : α × α), p ∈ pairsOf l → p.1 ∈ l ∧ p.2 ∈ l
  | [], _, h => by simp [pairsOf] at h
  | [_], _, h => by simp [pairsOf] at h
  | a :: b :: rest, p, h => by
    simp only [pairsOf, List.mem_cons] at h
    rcases h with h | h
    · subst h; simp
    · have := pairsOf_mem rest p h
      simp [this.1, this.2]

/-- Helper: the trace component of the column loop appends one upper and one
lower write event per column. -/
theorem writeCols_snd (day lesson : Nat) :
    ∀ (cols : List ((DataType × DataType) × (DataType × DataType))) (c : Nat)
      (st : List Week × List Slot),
      (writeCols day lesson c cols st).2 = st.2 ++ blockFrom c cols.length day lesson
  | [], c, st => by simp [writeCols, blockFrom]
  | col :: rest, c, st => by
    simp only [writeCols]
    rw [writeCols_snd day lesson rest (c + 1) _]
    simp [blockFrom, List.append_assoc]

/-- Helper: a row pair of the correct shape at pair index at most 48 passes
all checks and performs the column writes. -/
theorem scanPair_ok (s k : Nat) (buf : List Week) (tr : List Slot)
    (up lo : List DataType) (hk : k ≤ 48)
    (hu : up.length = 3 + 2 * s) (hl : lo.length = 3 + 2 * s) :
    scanPair s k (buf, tr) up lo =
      .ok (writeCols (k / 7) (k % 7) 0
        ((pairsOf (up.drop 3)).zip (pairsOf (lo.drop 3))) (buf, tr)) := by
  have hrcu : rowCheck up.length s = .ok () := by
    rw [hu]; unfold rowCheck
    rw [if_neg (by omega), if_neg (by omega : ¬ (3 + 2 * s - 3) / 2 ≠ s)]
  have hrcl : rowCheck lo.length s = .ok () := by
    rw [hl]; unfold rowCheck
    rw [if_neg (by omega), if_neg (by omega : ¬ (3 + 2 * s - 3) / 2 ≠ s)]
  have hzl : ((pairsOf (up.drop 3)).zip (pairsOf (lo.drop 3))).length = s := by
    rw [List.length_zip, pairsOf_length, pairsOf_length]
    simp [hu, hl]
  simp only [scanPair, hrcu, hrcl, hzl]
  rw [if_neg (by omega : ¬ k > 7 * 7), if_neg (by omega : ¬ k / 7 > 6),
    if_neg (by omega : ¬ k % 7 > 6), if_neg (by omega : ¬ s > s)]

/-- Helper: on a run of at most `49 - k` well-shaped row pairs starting at
pair index `k`, the body loop succeeds and appends exactly the canonical
trace of those pairs. -/
theorem scanPairs_ok (s : Nat) :
    ∀ (rest : List (List DataType × List DataType)) (k : Nat)
      (buf : List Week) (tr : List Slot),
      (∀ p ∈ rest, p.1.length = 3 + 2 * s ∧ p.2.length = 3 + 2 * s) →
      k + rest.length ≤ 49 →
      ∃ buf', scanPairs s k rest (buf, tr) = .ok (buf', tr ++ traceRange k rest.length s)
  | [], k, buf, tr, _, _ => ⟨buf, by simp [scanPairs, traceRange]⟩
  | (up, lo) :: rest, k, buf, tr, hv, hb => by
    simp only [List.length_cons] at hb
    have hup := (hv (up, lo) (by simp)).1
    have hlo := (hv (up, lo) (by simp)).2
    have hcl : ((pairsOf (up.drop 3)).zip (pairsOf (lo.drop 3))).length = s := by
      rw [List.length_zip, pairsOf_length, pairsOf_length]
      simp [hup, hlo]
    have hw2 : (writeCols (k / 7) (k % 7) 0
        ((pairsOf (up.drop 3)).zip (pairsOf (lo.drop 3))) (buf, tr)).2 =
        tr ++ blockFrom 0 s (k / 7) (k % 7) := by
      rw [writeCols_snd, hcl]
    obtain ⟨buf', hrec⟩ := scanPairs_ok s rest (k + 1)
      (writeCols (k / 7) (k % 7) 0
        ((pairsOf (up.drop 3)).zip (pairsOf (lo.drop 3))) (buf, tr)).1
      (writeCols (k / 7) (k % 7) 0
        ((pairsOf (up.drop 3)).zip (pairsOf (lo.drop 3))) (buf, tr)).2
      (fun p hp => hv p (by simp [hp])) (by omega)
    refine ⟨buf', ?_⟩
    simp only [List.length_cons]
    rw [scanPairs, scanPair_ok s k buf tr up lo (by omega) hup hlo]
    show scanPairs s (k + 1) rest (writeCols (k / 7) (k % 7) 0
      ((pairsOf (up.drop 3)).zip (pairsOf (lo.drop 3))) (buf, tr)) = _
    rw [traceRange, ← List.append_assoc, ← hw2]
    exact hrec

/-- Helper: with well-shaped rows, a run of row pairs that would push the
pair index beyond 49 aborts with the too-many-rows panic (the `day_num <= 6`
assertion fires at pair index 49). -/
theorem scanPairs_overflow (s : Nat) :
    ∀ (rest : List (List DataType × List DataType)) (k : Nat)
      (st : List Week × List Slot),
      (∀ p ∈ rest, p.1.length = 3 + 2 * s ∧ p.2.length = 3 + 2 * s) →
      49 < k + rest.length → k ≤ 49 →
      scanPairs s k rest st = .error .tooManyRows
  | [], k, st, _, hover, hk => absurd hover (by simp; omega)
  | (up, lo) :: rest, k, st, hv, hover, hk => by
    simp only [List.length_cons] at hover
    by_cases h49 : k = 49
    · subst h49
      rw [scanPairs]
      have hfail : scanPair s 49 st up lo = .error .tooManyRows := by
        unfold scanPair
        rw [if_neg (by decide), if_pos (by decide)]
      rw [hfail]
      rfl
    · obtain ⟨buf, tr⟩ := st
      rw [scanPairs, scanPair_ok s k buf tr up lo (by omega)
        (hv (up, lo) (by simp)).1 (hv (up, lo) (by simp)).2]
      show scanPairs s (k + 1) rest _ = _
      exact scanPairs_overflow s rest (k + 1) _ (fun p hp => hv p (by simp [hp]))
        (by omega) (by omega)

/-- Helper: occurrence count of one slot in the write events of a single
column block. -/
theorem count_blockFrom (d l c d' l' : Nat) (h : Bool) (n : Nat) :
    ∀ (c0 : Nat),
      (blockFrom c0 n d l).count (c, d', l', h) =
        if c0 ≤ c ∧ c < c0 + n ∧ d' = d ∧ l' = l then 1 else 0 := by
  induction n with
  | zero =>
    intro c0
    rw [blockFrom, List.count_nil, if_neg (by omega)]
  | succ m ih =>
    intro c0
    rw [blockFrom, List.count_cons, List.count_cons, ih (c0 + 1)]
    cases h <;> simp [Prod.ext_iff] <;> split_ifs <;> omega

/-- Helper: occurrence count of one slot in the canonical trace of `n` row
pairs starting at pair index `k`. -/
theorem count_traceRange (s c d l : Nat) (h : Bool) :
    ∀ (n k : Nat),
      (traceRange k n s).count (c, d, l, h) =
        if c < s ∧ l < 7 ∧ k ≤ 7 * d + l ∧ 7 * d + l < k + n then 1 else 0
  | 0, k => by rw [traceRange, List.count_nil, if_neg (by omega)]
  | n + 1, k => by
    rw [traceRange, List.count_append, count_blockFrom (k / 7) (k % 7) c d l h s 0,
      count_traceRange s c d l h n (k + 1)]
    split_ifs <;> omega

/-- C2 counterexample: a grid of one valid row pair (rows of `3 + 2·1`
cells, `1 ≤ 49` pairs) is a "valid grid" in the claim's sense, yet the slot
(column 0, day 0, lesson 1, upper) is written zero times, not exactly
once. -/
theorem c2_counterexample :
    (List.replicate 5 DataType.empty).length = 3 + 2 * 1 ∧
    (pairsOf [List.replicate 5 DataType.empty, List.replicate 5 DataType.empty]).length ≤ 49 ∧
    (scanBody [List.replicate 5 DataType.empty, List.replicate 5 DataType.empty] 1).map
      (fun p => p.2.count ((0, 0, 1, true) : Slot)) = .ok 0 :=
  ⟨by decide, by decide, by decide⟩

/-- C2 (amended): for every grid whose body rows all carry `3 + 2·s` cells
and pair into *exactly* 49 row pairs, the scan succeeds and writes each of
the `7 × 7 × s × 2` class slots exactly once (with fewer pairs, the slots of
unprocessed day/lesson indices are never written). -/
theorem c2_amended (rows : List (List DataType)) (s : Nat)
    (hrows : ∀ r ∈ rows, r.length = 3 + 2 * s)
    (hpairs : (pairsOf rows).length = 49) :
    ∃ buf tr, scanBody rows s = .ok (buf, tr) ∧
      ∀ (c d l : Nat) (h : Bool), c < s → d < 7 → l < 7 →
        tr.count (c, d, l, h) = 1 := by
  obtain ⟨buf, hscan⟩ := scanPairs_ok s (pairsOf rows) 0 (List.replicate s Week.default) []
    (fun p hp => ⟨hrows p.1 (pairsOf_mem rows p hp).1, hrows p.2 (pairsOf_mem rows p hp).2⟩)
    (by omega)
  rw [List.nil_append, hpairs] at hscan
  refine ⟨buf, traceRange 0 49 s, hscan, ?_⟩
  intro c d l h hc hd hl
  rw [count_traceRange, if_pos (by omega)]

/-- C2 witness: a concrete 98-row, one-column grid pairs into exactly 49
pairs and realizes the exactly-once property. -/
theorem c2_witness :
    ∃ buf tr,
      scanBody (List.replicate 98 (List.replicate 5 DataType.empty)) 1 = .ok (buf, tr) ∧
      ∀ (c d l : Nat) (h : Bool), c < 1 → d < 7 → l < 7 →
        tr.count (c, d, l, h) = 1 :=
  c2_amended (List.replicate 98 (List.replicate 5 DataType.empty)) 1
    (by
      intro r hr
      rw [List.eq_of_mem_replicate hr]
      decide)
    (by rw [pairsOf_length]; decide)

/-- C6: with well-shaped rows, the scan aborts with the too-many-rows panic
exactly when the body pairs into more than 49 row pairs (the `day_num <= 6`
assertion firing at pair index 49, whose `day = 49 / 7 = 7`), and on success
the write events realize `day = k / 7`, `lesson = k % 7` for every pair
index `k` (the canonical trace `traceRange` is built from exactly those two
quotients). -/
theorem c6_day_lesson (rows : List (List DataType)) (s : Nat)
    (hrows : ∀ r ∈ rows, r.length = 3 + 2 * s) :
    (49 < (pairsOf rows).length → scanBody rows s = .error .tooManyRows) ∧
    ((pairsOf rows).length ≤ 49 →
      ∃ buf, scanBody rows s = .ok (buf, traceRange 0 (pairsOf rows).length s)) := by
  have hvalid : ∀ p ∈ pairsOf rows, p.1.length = 3 + 2 * s ∧ p.2.length = 3 + 2 * s :=
    fun p hp => ⟨hrows p.1 (pairsOf_mem rows p hp).1, hrows p.2 (pairsOf_mem rows p hp).2⟩
  constructor
  · intro hover
    exact scanPairs_overflow s (pairsOf rows) 0 _ hvalid (by omega) (by omega)
  · intro hle
    obtain ⟨buf, hscan⟩ := scanPairs_ok s (pairsOf rows) 0
      (List.replicate s Week.default) [] hvalid (by omega)
    rw [List.nil_append] at hscan
    exact ⟨buf, hscan⟩

/-- C6 witness: a 100-row grid (50 pairs) aborts with the too-many-rows
panic; a 4-row grid (2 pairs) succeeds with the canonical trace. -/
theorem c6_witness :
    scanBody (List.replicate 100 (List.replicate 5 DataType.empty)) 1 =
      .error ScanError.tooManyRows ∧
    ∃ buf, scanBody (List.replicate 4 (List.replicate 5 DataType.empty)) 1 =
      .ok (buf, traceRange 0
        (pairsOf (List.replicate 4 (List.replicate 5 DataType.empty))).length 1) :=
  ⟨(c6_day_lesson (List.replicate 100 (List.replicate 5 DataType.empty)) 1
      (by
        intro r hr
        rw [List.eq_of_mem_replicate hr]
        decide)).1
    (by rw [pairsOf_length]; decide),
   (c6_day_lesson (List.replicate 4 (List.replicate 5 DataType.empty)) 1
      (by
        intro r hr
        rw [List.eq_of_mem_replicate hr]
        decide)).2
    (by rw [pairsOf_length]; decide)⟩

/-- Helper: a decoder that inverts an encoder elementwise inverts it on
mapped lists. -/
theorem mapM_map_enc (dec : Json → Option α) (enc : α → Json) :
    ∀ (l : List α), (∀ x ∈ l, dec (enc x) = some x) → (l.map enc).mapM dec = some l
  | [], _ => rfl
  | x :: xs, h => by
    rw [List.map_cons, List.mapM_cons, h x (by simp),
      mapM_map_enc dec enc xs (fun y hy => h y (by simp [hy]))]
    rfl

/-- Helper: round-trip of `ClassType`. -/
theorem classType_roundtrip (t : ClassType) :
    decodeClassType (encodeClassType t) = some t := by
  cases t <;> rfl

/-- Helper: round-trip of an optional string. -/
theorem optStr_roundtrip (t : Option String) :
    decodeOptStr (encodeOptStr t) = some t := by
  cases t <;> rfl

/-- Helper: round-trip of `Class`. -/
theorem class_roundtrip (c : Class) : decodeClass (encodeClass c) = some c := by
  obtain ⟨n, ct, t, r⟩ := c
  simp [encodeClass, decodeClass, decodeStr, classType_roundtrip, optStr_roundtrip]

/-- Helper: round-trip of an optional `Class`. -/
theorem optClass_roundtrip (oc : Option Class) :
    decodeOptClass (encodeOptClass oc) = some oc := by
  cases oc with
  | none => rfl
  | some c =>
    have h := class_roundtrip c
    obtain ⟨n, ct, t, r⟩ := c
    simp only [encodeClass] at h
    simp [encodeOptClass, encodeClass, decodeOptClass, h]

/-- Helper: round-trip of `Day`. -/
theorem day_roundtrip (d : Day) : decodeDay (encodeDay d) = some d := by
  obtain ⟨u, l⟩ := d
  rw [encodeDay]
  show decodeDay (.obj [("upper_classes", .arr (u.map encodeOptClass)),
    ("lower_classes", .arr (l.map encodeOptClass))]) = _
  rw [decodeDay, mapM_map_enc decodeOptClass encodeOptClass u (fun x _ => optClass_roundtrip x),
    mapM_map_enc decodeOptClass encodeOptClass l (fun x _ => optClass_roundtrip x)]
  rfl

/-- Helper: round-trip of `Week`. -/
theorem week_roundtrip (w : Week) : decodeWeek (encodeWeek w) = some w := by
  rw [encodeWeek]
  show decodeWeek (.arr (w.map encodeDay)) = some w
  rw [decodeWeek, mapM_map_enc decodeDay encodeDay w (fun x _ => day_roundtrip x)]

/-- Helper: round-trip of `Subgroup`. -/
theorem subgroup_roundtrip (sg : Subgroup) :
    decodeSubgroup (encodeSubgroup sg) = some sg := by
  obtain ⟨n, w⟩ := sg
  rw [encodeSubgroup]
  show decodeSubgroup (.obj [("number", .num n), ("days", encodeWeek w)]) = _
  rw [decodeSubgroup, week_roundtrip w]
  rfl

/-- Helper: round-trip of `WeekInfo`. -/
theorem weekInfo_roundtrip (wi : WeekInfo) :
    decodeWeekInfo (encodeWeekInfo wi) = some wi := by
  cases wi with
  | WithSubgroups l =>
    rw [encodeWeekInfo]
    show decodeWeekInfo (.obj [("WithSubgroups", .arr (l.map encodeSubgroup))]) = _
    rw [decodeWeekInfo, mapM_map_enc decodeSubgroup encodeSubgroup l
      (fun x _ => subgroup_roundtrip x)]
    rfl
  | WithoutSubgroup w =>
    rw [encodeWeekInfo]
    show decodeWeekInfo (.obj [("WithoutSubgroup", encodeWeek w)]) = _
    rw [decodeWeekInfo, week_roundtrip w]
    rfl

/-- Helper: round-trip of `GroupInfo`. -/
theorem groupInfo_roundtrip (g : GroupInfo) :
    decodeGroupInfo (encodeGroupInfo g) = some g := by
  obtain ⟨n, s⟩ := g
  rw [encodeGroupInfo]
  show decodeGroupInfo (.obj [("name", .str n), ("subgroups", encodeWeekInfo s)]) = _
  rw [decodeGroupInfo, weekInfo_roundtrip s]
  rfl

/-- C8: serializing a `Course` — and each of the nested `GroupInfo`,
`WeekInfo`, `Subgroup`, `Day` and `Class` values — to the structured
document and deserializing the result yields the original value. -/
theorem c8_roundtrip :
    (∀ course : Course, decodeCourse (encodeCourse course) = some course) ∧
    (∀ g : GroupInfo, decodeGroupInfo (encodeGroupInfo g) = some g) ∧
    (∀ wi : WeekInfo, decodeWeekInfo (encodeWeekInfo wi) = some wi) ∧
    (∀ sg : Subgroup, decodeSubgroup (encodeSubgroup sg) = some sg) ∧
    (∀ d : Day, decodeDay (encodeDay d) = some d) ∧
    (∀ c : Class, decodeClass (encodeClass c) = some c) := by
  refine ⟨?_, groupInfo_roundtrip, weekInfo_roundtrip, subgroup_roundtrip,
    day_roundtrip, class_roundtrip⟩
  intro course
  obtain ⟨n, gs⟩ := course
  rw [encodeCourse]
  show decodeCourse (.obj [("name", .str n), ("groups", .arr (gs.map encodeGroupInfo))]) = _
  rw [decodeCourse, mapM_map_enc decodeGroupInfo encodeGroupInfo gs
    (fun x _ => groupInfo_roundtrip x)]
  rfl

end Misisa
